import Mathlib

/-!
Verification development for the `githubhook` Go package: a shallow
embedding of its request-validation pipeline (`githubhook.go`) in Lean 4,
with theorems settling the specification's claims.

Bytes are modelled as `Nat` values below 256; 32-bit machine arithmetic is
modelled on `Nat` with explicit reduction modulo 2^32.
-/

set_option maxRecDepth 100000

namespace Githubhook

/-! ## Byte-level helpers -/

/-- Models the Go conversion `[]byte(s)` for a string.  Go produces the
UTF-8 encoding of the string; every string occurring in this development is
ASCII, for which UTF-8 encoding is the identity on code points. -/
def strBytes (s : String) : List Nat :=
  s.data.map Char.toNat

/-! ## Model of Go `encoding/hex` decoding (`hex.DecodeString`) -/

/-- Models Go `encoding/hex.fromHexChar`: accepts decimal digits and both
lowercase and uppercase hexadecimal letters. -/
def fromHexChar (c : Char) : Option Nat :=
  if '0' ≤ c ∧ c ≤ '9' then some (c.toNat - '0'.toNat)
  else if 'a' ≤ c ∧ c ≤ 'f' then some (c.toNat - 'a'.toNat + 10)
  else if 'A' ≤ c ∧ c ≤ 'F' then some (c.toNat - 'A'.toNat + 10)
  else none

/-- Errors of Go `encoding/hex` decoding: an invalid byte, or an
odd-length input. -/
inductive HexError where
  | invalidByte (c : Char)
  | errLength
  deriving DecidableEq, Repr

/-- Uppercase hexadecimal digit for `n < 16`. -/
def hexDigitUpper (n : Nat) : Char :=
  if n < 10 then Char.ofNat ('0'.toNat + n) else Char.ofNat ('A'.toNat + n - 10)

/-- Four-digit uppercase hexadecimal rendering of a code point, as in Go's
`%#U` format directive (`U+0041`). -/
def hexUpper4 (n : Nat) : String :=
  String.mk [hexDigitUpper (n / 4096 % 16), hexDigitUpper (n / 256 % 16),
             hexDigitUpper (n / 16 % 16), hexDigitUpper (n % 16)]

/-- Models the `Error()` strings of Go `encoding/hex` errors:
`InvalidByteError` renders as `encoding/hex: invalid byte: %#U` and
`ErrLength` as `encoding/hex: odd length hex string`. -/
def HexError.message : HexError → String
  | .invalidByte c =>
      "encoding/hex: invalid byte: U+" ++ hexUpper4 c.toNat ++ " '" ++ String.mk [c] ++ "'"
  | .errLength => "encoding/hex: odd length hex string"

/-- Models Go `encoding/hex.Decode` on a character list: bytes are decoded
pairwise, the first invalid character is reported, and a trailing lone
valid character yields the odd-length error. -/
def hexDecodeChars : List Char → Except HexError (List Nat)
  | [] => .ok []
  | [c] =>
    match fromHexChar c with
    | none => .error (.invalidByte c)
    | some _ => .error .errLength
  | a :: b :: rest =>
    match fromHexChar a with
    | none => .error (.invalidByte a)
    | some va =>
      match fromHexChar b with
      | none => .error (.invalidByte b)
      | some vb =>
        match hexDecodeChars rest with
        | .error e => .error e
        | .ok l => .ok ((va * 16 + vb) :: l)

/-- Models Go `encoding/hex.DecodeString`. -/
def hexDecode (s : String) : Except HexError (List Nat) :=
  hexDecodeChars s.data

/-! ## Model of SHA-1 (Go `crypto/sha1`) -/

/-- The modulus 2^32 of 32-bit machine arithmetic. -/
def w32 : Nat := 4294967296

/-- Left rotation of a 32-bit word by `n` bits. -/
def rotl32 (n x : Nat) : Nat :=
  ((x * 2 ^ n) + (x / 2 ^ (32 - n))) % w32

/-- Bitwise complement of a 32-bit word. -/
def not32 (x : Nat) : Nat := x ^^^ (w32 - 1)

/-- Big-endian packing of bytes into 32-bit words (four bytes per word). -/
def bytesToWords : List Nat → List Nat
  | b0 :: b1 :: b2 :: b3 :: rest =>
      (b0 * 16777216 + b1 * 65536 + b2 * 256 + b3) % w32 :: bytesToWords rest
  | _ => []

/-- Big-endian unpacking of a 32-bit word into four bytes. -/
def wordToBytes (x : Nat) : List Nat :=
  [x / 16777216 % 256, x / 65536 % 256, x / 256 % 256, x % 256]

/-- Big-endian 8-byte encoding of a 64-bit length, as SHA-1 padding uses. -/
def lenToBytes8 (n : Nat) : List Nat :=
  (List.range 8).map (fun i => n / 2 ^ (8 * (7 - i)) % 256)

/-- SHA-1 message padding: append `0x80`, zero bytes to 56 mod 64, then the
bit length as 8 big-endian bytes. -/
def sha1Pad (msg : List Nat) : List Nat :=
  msg ++ (128 :: List.replicate ((119 - msg.length % 64) % 64) 0)
      ++ lenToBytes8 (8 * msg.length)

/-- SHA-1 message-schedule extension: `acc` holds the words produced so far
in reverse order; each step prepends
`rotl1 (w[t-3] xor w[t-8] xor w[t-14] xor w[t-16])`. -/
def sha1ExtendLoop : Nat → List Nat → List Nat
  | 0, acc => acc
  | n + 1, acc =>
      sha1ExtendLoop n
        (rotl32 1 (acc.getD 2 0 ^^^ acc.getD 7 0 ^^^ acc.getD 13 0 ^^^ acc.getD 15 0) :: acc)

/-- The 80-word SHA-1 message schedule of one 16-word block. -/
def sha1Schedule (block : List Nat) : List Nat :=
  (sha1ExtendLoop 64 block.reverse).reverse

/-- The SHA-1 round function `f_t`. -/
def sha1F (t b c d : Nat) : Nat :=
  if t < 20 then (b &&& c) ||| (not32 b &&& d)
  else if t < 40 then b ^^^ c ^^^ d
  else if t < 60 then (b &&& c) ||| (b &&& d) ||| (c &&& d)
  else b ^^^ c ^^^ d

/-- The SHA-1 round constant `K_t`. -/
def sha1K (t : Nat) : Nat :=
  if t < 20 then 1518500249
  else if t < 40 then 1859775393
  else if t < 60 then 2400959708
  else 3395469782

/-- One SHA-1 round: state is `(t, a, b, c, d, e)`. -/
def sha1Round (st : Nat × Nat × Nat × Nat × Nat × Nat) (w : Nat) :
    Nat × Nat × Nat × Nat × Nat × Nat :=
  match st with
  | (t, a, b, c, d, e) =>
      (t + 1, (rotl32 5 a + sha1F t b c d + e + sha1K t + w) % w32,
       a, rotl32 30 b, c, d)

/-- Processing of one 64-byte block: run 80 rounds over the schedule and
add the result to the chaining state. -/
def sha1Block (h : Nat × Nat × Nat × Nat × Nat) (block : List Nat) :
    Nat × Nat × Nat × Nat × Nat :=
  match h with
  | (h0, h1, h2, h3, h4) =>
    match (sha1Schedule (bytesToWords block)).foldl sha1Round (0, h0, h1, h2, h3, h4) with
    | (_, a, b, c, d, e) =>
        ((h0 + a) % w32, (h1 + b) % w32, (h2 + c) % w32, (h3 + d) % w32, (h4 + e) % w32)

/-- Split a byte list into 64-byte chunks (fuel-based to keep the
recursion structural). -/
def chunks64Aux : Nat → List Nat → List (List Nat)
  | 0, _ => []
  | _, [] => []
  | fuel + 1, l => l.take 64 :: chunks64Aux fuel (l.drop 64)

/-- Split a byte list into 64-byte chunks. -/
def chunks64 (l : List Nat) : List (List Nat) :=
  chunks64Aux (l.length + 1) l

/-- Models Go `crypto/sha1`: the SHA-1 digest (20 bytes) of a byte list. -/
def sha1 (msg : List Nat) : List Nat :=
  match (chunks64 (sha1Pad msg)).foldl sha1Block
      (1732584193, 4023233417, 2562383102, 271733878, 3285377520) with
  | (h0, h1, h2, h3, h4) =>
      wordToBytes h0 ++ wordToBytes h1 ++ wordToBytes h2 ++ wordToBytes h3 ++ wordToBytes h4

/-- Models Go `crypto/hmac` over SHA-1 (block size 64): keys longer than a
block are hashed; the key is zero-padded, XORed with the inner and outer
pads, and composed with two SHA-1 applications. -/
def hmacSha1 (key msg : List Nat) : List Nat :=
  let k0 := if 64 < key.length then sha1 key else key
  let k := k0 ++ List.replicate (64 - k0.length) 0
  sha1 (k.map (fun b => b ^^^ 92) ++ sha1 (k.map (fun b => b ^^^ 54) ++ msg))

/-- Models Go `crypto/hmac.Equal` (via `subtle.ConstantTimeCompare`): true
exactly when the two byte lists have equal length and equal contents; the
constant-time execution strategy has no observable counterpart here. -/
def hmacEqual (a b : List Nat) : Bool :=
  a == b

/-! ## Model of the dynamically-typed JSON values of `encoding/json` -/

/-- A dynamically-typed decoded value, as Go `json.Unmarshal` produces into
an `interface{}`.  Numbers are modelled on `Int` (the development only
exercises integral payloads; Go would use `float64`). -/
inductive Json where
  | null
  | bool (b : Bool)
  | num (n : Int)
  | str (s : String)
  | arr (elems : List Json)
  | obj (fields : List (String × Json))

/-- Whitespace skipping for the JSON reader. -/
def skipWs : List Char → List Char
  | c :: cs => if c = ' ' ∨ c = '\t' ∨ c = '\n' ∨ c = '\r' then skipWs cs else c :: cs
  | [] => []

/-- Reads a JSON string body after the opening quote; supports the common
escapes. -/
def parseJString : List Char → Except String (String × List Char)
  | [] => .error "unexpected end of JSON input"
  | '"' :: rest => .ok ("", rest)
  | '\\' :: e :: rest =>
    match
      (if e = '"' then some '"' else if e = '\\' then some '\\'
       else if e = '/' then some '/' else if e = 'n' then some '\n'
       else if e = 't' then some '\t' else if e = 'r' then some '\r' else none) with
    | none => .error "invalid character in string escape code"
    | some c =>
      match parseJString rest with
      | .error e => .error e
      | .ok (s, rem) => .ok (String.mk [c] ++ s, rem)
  | c :: rest =>
    match parseJString rest with
    | .error e => .error e
    | .ok (s, rem) => .ok (String.mk [c] ++ s, rem)

/-- Reads a digit run as a natural number with its value. -/
def parseDigits : List Char → Option (Nat × List Char)
  | cs =>
    let ds := cs.takeWhile (fun c => '0' ≤ c ∧ c ≤ '9')
    if ds.isEmpty then none
    else some (ds.foldl (fun a c => a * 10 + (c.toNat - '0'.toNat)) 0, cs.drop ds.length)

mutual

/-- Reads one JSON value (fuel-based recursion; the fuel is at least the
input length, so it never runs out on real input). -/
def parseJValue : Nat → List Char → Except String (Json × List Char)
  | 0, _ => .error "unexpected end of JSON input"
  | fuel + 1, cs =>
    match skipWs cs with
    | [] => .error "unexpected end of JSON input"
    | 'n' :: 'u' :: 'l' :: 'l' :: rest => .ok (.null, rest)
    | 't' :: 'r' :: 'u' :: 'e' :: rest => .ok (.bool true, rest)
    | 'f' :: 'a' :: 'l' :: 's' :: 'e' :: rest => .ok (.bool false, rest)
    | '"' :: rest =>
      match parseJString rest with
      | .error e => .error e
      | .ok (s, rem) => .ok (.str s, rem)
    | '[' :: rest =>
      (match skipWs rest with
       | ']' :: rem => .ok (.arr [], rem)
       | other =>
         match parseJElems fuel other [] with
         | .error e => .error e
         | .ok (l, rem) => .ok (.arr l, rem))
    | '{' :: rest =>
      (match skipWs rest with
       | '}' :: rem => .ok (.obj [], rem)
       | other =>
         match parseJMembers fuel other [] with
         | .error e => .error e
         | .ok (l, rem) => .ok (.obj l, rem))
    | '-' :: rest =>
      (match parseDigits rest with
       | none => .error "invalid character after top-level minus"
       | some (n, rem) => .ok (.num (-(n : Int)), rem))
    | c :: rest =>
      if '0' ≤ c ∧ c ≤ '9' then
        match parseDigits (c :: rest) with
        | none => .error "invalid number"
        | some (n, rem) => .ok (.num (n : Int), rem)
      else .error ("invalid character " ++ String.mk [c] ++ " looking for beginning of value")

/-- Reads the elements of a JSON array after its opening bracket. -/
def parseJElems : Nat → List Char → List Json → Except String (List Json × List Char)
  | 0, _, _ => .error "unexpected end of JSON input"
  | fuel + 1, cs, acc =>
    match parseJValue fuel cs with
    | .error e => .error e
    | .ok (v, rem) =>
      match skipWs rem with
      | ',' :: rem2 => parseJElems fuel rem2 (acc ++ [v])
      | ']' :: rem2 => .ok (acc ++ [v], rem2)
      | _ => .error "invalid character after array element"

/-- Reads the members of a JSON object after its opening brace. -/
def parseJMembers : Nat → List Char → List (String × Json) →
    Except String (List (String × Json) × List Char)
  | 0, _, _ => .error "unexpected end of JSON input"
  | fuel + 1, cs, acc =>
    match skipWs cs with
    | '"' :: rest =>
      (match parseJString rest with
       | .error e => .error e
       | .ok (key, rem) =>
         match skipWs rem with
         | ':' :: rem2 =>
           (match parseJValue fuel rem2 with
            | .error e => .error e
            | .ok (v, rem3) =>
              match skipWs rem3 with
              | ',' :: rem4 => parseJMembers fuel rem4 (acc ++ [(key, v)])
              | '}' :: rem4 => .ok (acc ++ [(key, v)], rem4)
              | _ => .error "invalid character after object key:value pair")
         | _ => .error "invalid character after object key")
    | _ => .error "invalid character looking for beginning of object key string"

end

/-- Models Go `encoding/json.Unmarshal` into an `interface{}` for the JSON
subset this development exercises: bytes are decoded as characters (all
payloads used are ASCII), one value is read, and only whitespace may
follow. -/
def jsonUnmarshal (bs : List Nat) : Except String Json :=
  let cs := bs.map Char.ofNat
  match parseJValue (cs.length + 1) cs with
  | .error e => .error e
  | .ok (v, rem) =>
    if (skipWs rem).isEmpty then .ok v
    else .error "invalid character after top-level value"

/-! ## Model of the inbound HTTP request -/

/-- Models the part of Go `*http.Request` the pipeline reads.

`body` is the one-shot result of reading the request body to completion:
either the bytes, or (the `Error()` string of) an I/O failure.  `form` is
the URL-encoded form data carried by the body (the fields
`net/http.Request.ParseForm` would populate from it when the body reads
successfully); its parsing from the raw bytes is Go standard-library
behaviour and is not re-modelled here. -/
structure Request where
  method : String
  headers : List (String × String)
  body : Except String (List Nat)
  form : List (String × String)

/-- ASCII lowercasing of one character, for case-insensitive header
comparison. -/
def charLower (c : Char) : Char :=
  if 'A' ≤ c ∧ c ≤ 'Z' then Char.ofNat (c.toNat + 32) else c

/-- Case-insensitive ASCII string equality. -/
def eqCaseInsensitive (a b : String) : Bool :=
  a.data.map charLower == b.data.map charLower

/-- Models Go `http.Header.Get`: case-insensitive lookup (Go canonicalises
the MIME header key on both sides), returning the first value, or `""`
when the header is absent. -/
def headerGet (req : Request) (name : String) : String :=
  match req.headers.find? (fun p => eqCaseInsensitive p.1 name) with
  | some p => p.2
  | none => ""

/-- Models Go `http.Request.PostFormValue`: parses the form if necessary,
ignoring any error from parsing (so a failing body read yields an empty
form), and returns the first value of the named field, or `""` when the
field is absent. -/
def Request.postFormValue (req : Request) (name : String) : String :=
  match req.body with
  | .error _ => ""
  | .ok _ =>
    match req.form.find? (fun p => p.1 == name) with
    | some p => p.2
    | none => ""

/-! ## Errors and the handler configuration -/

/-- The classified error type `RequestError` of `githubhook.go`, carrying
an HTTP status code and a human-readable message. -/
structure RequestError where
  StatusCode : Nat
  Message : String
  deriving DecidableEq, Repr

/-- A Go `error` value as the pipeline produces it: either a classified
`*RequestError`, or any other (unclassified) error identified by its
`Error()` string. -/
inductive GoError where
  | request (e : RequestError)
  | other (msg : String)
  deriving DecidableEq, Repr

/-- The `Handler` configuration struct of `githubhook.go`.  The `Delivery`
and `Error` callbacks are invoked only for their side effects, which this
model records in an event trace, so the configuration keeps only whether
each is set (`true` models a non-nil Go function value); `DecodePayload`
is kept as an optional function since its result feeds the pipeline. -/
structure Handler where
  Secret : String
  DecodePayload : Option (String → List Nat → Except String Json)
  Delivery : Bool
  Error : Bool

/-- The zero value of `Handler`: all four fields unset. -/
def zeroHandler : Handler :=
  { Secret := "", DecodePayload := none, Delivery := false, Error := false }

/-- Observable events of one request's processing, in order: a read of the
request body, an invocation of the `Delivery` callback, a response written
by `http.Error`, an invocation of the `Error` observer callback. -/
inductive Event where
  | bodyRead
  | deliveryCall (event deliveryID : String) (payload : Json)
  | respondError (statusCode : Nat) (body : String)
  | errorCall (err : GoError) (req : Request)

/-- The body reads recorded in a trace. -/
def bodyReadCount (tr : List Event) : Nat :=
  (tr.filter (fun e => match e with | .bodyRead => true | _ => false)).length

/-- The `Delivery`-callback invocations recorded in a trace, with their
arguments. -/
def deliveryCalls (tr : List Event) : List (String × String × Json) :=
  tr.filterMap (fun e => match e with
    | .deliveryCall ev id p => some (ev, id, p)
    | _ => none)

/-- The responses written by `http.Error` recorded in a trace, as
(status code, body text) pairs. -/
def responsesWritten (tr : List Event) : List (Nat × String) :=
  tr.filterMap (fun e => match e with
    | .respondError c m => some (c, m)
    | _ => none)

/-- The `Error`-observer invocations recorded in a trace, with the error
value and request passed. -/
def errorCalls (tr : List Event) : List (GoError × Request) :=
  tr.filterMap (fun e => match e with
    | .errorCall err req => some (err, req)
    | _ => none)

/-- Models Go `http.StatusText` for the status codes this package uses. -/
def statusText (code : Nat) : String :=
  if code = 400 then "Bad Request"
  else if code = 405 then "Method Not Allowed"
  else if code = 500 then "Internal Server Error"
  else ""

/-! ## The validation pipeline (`githubhook.go`) -/

/-- Function `checkHTTPMethod`: any method other than `"POST"` yields a classified
405 error. -/
def checkHTTPMethod (req : Request) : Except GoError Unit :=
  if req.method ≠ "POST" then
    .error (.request ⟨405, "method not allowed: " ++ req.method⟩)
  else
    .ok ()

/-- Function `requireHeader`: reads the named header; an absent or empty value
yields a classified 400 error. -/
def requireHeader (name : String) (req : Request) : Except GoError String :=
  let hd := headerGet req name
  if hd = "" then
    .error (.request ⟨400, "missing header: " ++ name⟩)
  else
    .ok hd

/-- Function `getRawPayload`: dispatches on the verbatim `Content-Type` header
value.  `application/json` reads the whole body (`ioutil.ReadAll`);
`application/x-www-form-urlencoded` takes the `payload` form field (with a
literal `nil` error); anything else is a classified 400 error.  The second
component records the body reads the branch performs. -/
def getRawPayload (req : Request) : Except GoError (List Nat) × List Event :=
  match headerGet req "Content-Type" with
  | "application/json" =>
    (match req.body with
     | .ok bs => .ok bs
     | .error e => .error (.other e), [.bodyRead])
  | "application/x-www-form-urlencoded" =>
    (.ok (strBytes (req.postFormValue "payload")), [.bodyRead])
  | t => (.error (.request ⟨400, "invalid content type: " ++ t⟩), [])

/-- Models Go `strings.HasPrefix` (character-wise; byte-wise and
character-wise prefixes coincide under UTF-8). -/
def hasPrefixStr (p s : String) : Bool :=
  p.data.isPrefixOf s.data

/-- Models Go `strings.TrimPrefix`: drops `p` from the front of `s` when
it is a prefix, otherwise returns `s` unchanged. -/
def trimPrefixStr (p s : String) : String :=
  if hasPrefixStr p s then String.mk (s.data.drop p.data.length) else s

/-- Function `Handler.checkSignaturePayload`: requires the `sha1=` prefix, hex
decodes the rest, and compares against the HMAC-SHA1 of the raw payload
under the secret.  Errors are returned by their `Error()` string. -/
def Handler.checkSignaturePayload (h : Handler) (rawPayload : List Nat)
    (signature : String) : Except String Unit :=
  if ¬ hasPrefixStr "sha1=" signature then .error "format"
  else
    match hexDecode (trimPrefixStr "sha1=" signature) with
    | .error e => .error e.message
    | .ok requestMAC =>
      let expectedMAC := hmacSha1 (strBytes h.Secret) rawPayload
      if ¬ hmacEqual requestMAC expectedMAC then .error "doesn't match secret"
      else .ok ()

/-- Function `Handler.checkSignature`: skipped entirely when the secret is empty;
otherwise requires the `X-Hub-Signature` header and wraps any payload
check failure as a classified 400 error. -/
def Handler.checkSignature (h : Handler) (rawPayload : List Nat)
    (req : Request) : Except GoError Unit :=
  if h.Secret = "" then .ok ()
  else
    match requireHeader "X-Hub-Signature" req with
    | .error e => .error e
    | .ok signature =>
      match h.checkSignaturePayload rawPayload signature with
      | .error msg =>
        .error (.request ⟨400, "invalid header X-Hub-Signature: " ++ msg⟩)
      | .ok _ => .ok ()

/-- Function `Handler.decodePayload`: the custom decoder when configured, JSON
unmarshalling otherwise; any failure is wrapped as a classified 400
error. -/
def Handler.decodePayload (h : Handler) (event : String)
    (rawPayload : List Nat) : Except GoError Json :=
  let r := match h.DecodePayload with
    | some f => f event rawPayload
    | none => jsonUnmarshal rawPayload
  match r with
  | .error e => .error (.request ⟨400, "payload decode error: " ++ e⟩)
  | .ok payload => .ok payload

/-- Function `Handler.handleRequest`: the pipeline, stage by stage, with Go's early
returns rendered as nested matches.  Returns the Go return value together
with the trace of observable events. -/
def Handler.handleRequest (h : Handler) (req : Request) :
    Except GoError Unit × List Event :=
  match checkHTTPMethod req with
  | .error e => (.error e, [])
  | .ok _ =>
  match requireHeader "X-GitHub-Event" req with
  | .error e => (.error e, [])
  | .ok event =>
  match requireHeader "X-GitHub-Delivery" req with
  | .error e => (.error e, [])
  | .ok deliveryID =>
  match getRawPayload req with
  | (.error e, tr) => (.error e, tr)
  | (.ok rawPayload, tr) =>
  match h.checkSignature rawPayload req with
  | .error e => (.error e, tr)
  | .ok _ =>
  match h.decodePayload event rawPayload with
  | .error e => (.error e, tr)
  | .ok payload =>
    (.ok (), tr ++ if h.Delivery then [.deliveryCall event deliveryID payload] else [])

/-- Function `Handler.handleError`: writes `http.Error` with the classified status
and message, or 500 and the generic status text for any other error; then
invokes the `Error` observer (with the error and the request) when
configured. -/
def Handler.handleError (h : Handler) (err : GoError) (req : Request) : List Event :=
  let sm : Nat × String :=
    match err with
    | .request e => (e.StatusCode, e.Message)
    | .other _ => (500, statusText 500)
  [.respondError sm.1 sm.2] ++ if h.Error then [.errorCall err req] else []

/-- Function `Handler.ServeHTTP`: runs the pipeline and reports any error; returns
the full event trace of the request. -/
def Handler.ServeHTTP (h : Handler) (req : Request) : List Event :=
  match h.handleRequest req with
  | (.ok _, tr) => tr
  | (.error e, tr) => tr ++ h.handleError e req

/-! ## Concrete fixtures used by witnesses and counterexamples -/

/-- A well-formed JSON delivery request, as the package's own tests build
it. -/
def reqJson : Request :=
  { method := "POST"
  , headers := [("X-Github-Event", "push"), ("X-Github-Delivery", "did"),
                ("Content-Type", "application/json")]
  , body := .ok (strBytes "\x7b\"foo\":\"bar\"\x7d")
  , form := [] }

/-- The same request with method GET. -/
def reqGet : Request :=
  { reqJson with method := "GET" }

/-- The same request without the event header. -/
def reqNoEvent : Request :=
  { reqJson with headers := [("Content-Type", "application/json")] }

/-- The same request without the delivery header. -/
def reqNoDelivery : Request :=
  { reqJson with
    headers := [("X-Github-Event", "push"), ("Content-Type", "application/json")] }

/-- A handler configured with the secret of the package's tests and both
callbacks set. -/
def hSecret : Handler :=
  { Secret := "foobar", DecodePayload := none, Delivery := true, Error := true }

/-- The JSON request extended with a signature header. -/
def reqWithSig (s : String) : Request :=
  { reqJson with headers := reqJson.headers ++ [("X-Hub-Signature", s)] }

/-- A form-encoded request whose body read fails. -/
def reqFormFail : Request :=
  { method := "POST"
  , headers := [("X-Github-Event", "push"), ("X-Github-Delivery", "did"),
                ("Content-Type", "application/x-www-form-urlencoded")]
  , body := .error "read failure"
  , form := [] }

/-- A JSON request whose body read fails. -/
def reqJsonFail : Request :=
  { reqJson with body := .error "read failure" }

/-- A handler with only the delivery callback configured. -/
def hDeliver : Handler :=
  { Secret := "", DecodePayload := none, Delivery := true, Error := false }

/-! ## Theorems -/

/-- Function `requireHeader` restated as a conditional. -/
theorem requireHeader_eq (name : String) (req : Request) :
    requireHeader name req =
      if headerGet req name = ""
      then .error (.request ⟨400, "missing header: " ++ name⟩)
      else .ok (headerGet req name) := rfl

/-- A string with the prefix `sha1=` is nonempty. -/
theorem sha1_prefixed_nonempty {s : String}
    (hp : hasPrefixStr "sha1=" s = true) : s ≠ "" := by
  intro hs
  subst hs
  exact absurd hp (by decide)

/-- The trace of payload extraction is empty (unsupported content type)
or a single body read. -/
theorem getRawPayload_trace (req : Request) :
    (getRawPayload req).2 = [] ∨ (getRawPayload req).2 = [.bodyRead] := by
  unfold getRawPayload
  split
  · right; rfl
  · right; rfl
  · left; rfl

/-- Payload extraction performs at most one body read and no callback
invocation or response write. -/
theorem raw_trace_filters (req : Request) :
    deliveryCalls (getRawPayload req).2 = [] ∧
    responsesWritten (getRawPayload req).2 = [] ∧
    errorCalls (getRawPayload req).2 = [] ∧
    bodyReadCount (getRawPayload req).2 ≤ 1 := by
  rcases getRawPayload_trace req with h | h <;> rw [h] <;>
    exact ⟨rfl, rfl, rfl, by decide⟩

/-- Function `deliveryCalls` distributes over trace concatenation. -/
theorem deliveryCalls_append (a b : List Event) :
    deliveryCalls (a ++ b) = deliveryCalls a ++ deliveryCalls b := by
  simp [deliveryCalls]

/-- Function `responsesWritten` distributes over trace concatenation. -/
theorem responsesWritten_append (a b : List Event) :
    responsesWritten (a ++ b) = responsesWritten a ++ responsesWritten b := by
  simp [responsesWritten]

/-- Function `errorCalls` distributes over trace concatenation. -/
theorem errorCalls_append (a b : List Event) :
    errorCalls (a ++ b) = errorCalls a ++ errorCalls b := by
  simp [errorCalls]

/-- Function `bodyReadCount` adds over trace concatenation. -/
theorem bodyReadCount_append (a b : List Event) :
    bodyReadCount (a ++ b) = bodyReadCount a + bodyReadCount b := by
  simp [bodyReadCount]

/-- Error reporting reads no body and invokes no delivery callback; the
error observer runs exactly when configured. -/
theorem handleError_filters (h : Handler) (err : GoError) (req : Request) :
    deliveryCalls (h.handleError err req) = [] ∧
    bodyReadCount (h.handleError err req) = 0 ∧
    responsesWritten (h.handleError err req) =
      [((match err with
         | .request e => (e.StatusCode, e.Message)
         | .other _ => (500, statusText 500)) : Nat × String)] ∧
    (h.Error = false → errorCalls (h.handleError err req) = []) ∧
    (h.Error = true → errorCalls (h.handleError err req) = [(err, req)]) := by
  unfold Handler.handleError
  cases err <;> cases hE : h.Error <;>
    simp [deliveryCalls, bodyReadCount, responsesWritten, errorCalls, hE]

/-- Exhaustive case analysis of the pipeline's result and trace: a failure
leaves the trace empty or equal to the payload-extraction trace; a success
appends the delivery-callback event exactly when the callback is
configured. -/
theorem handleRequest_cases (h : Handler) (req : Request)
    (res : Except GoError Unit) (tr : List Event)
    (hR : h.handleRequest req = (res, tr)) :
    ((∃ e, res = .error e) ∧ (tr = [] ∨ tr = (getRawPayload req).2)) ∨
    (res = .ok () ∧
      ∃ ev id payload,
        tr = (getRawPayload req).2 ++
          (if h.Delivery then [.deliveryCall ev id payload] else [])) := by
  unfold Handler.handleRequest at hR
  split at hR
  next e heq =>
    injection hR with h1 h2
    exact .inl ⟨⟨e, h1.symm⟩, .inl h2.symm⟩
  next =>
  split at hR
  next e heq =>
    injection hR with h1 h2
    exact .inl ⟨⟨e, h1.symm⟩, .inl h2.symm⟩
  next ev heq1 =>
  split at hR
  next e heq =>
    injection hR with h1 h2
    exact .inl ⟨⟨e, h1.symm⟩, .inl h2.symm⟩
  next id heq2 =>
  split at hR
  next e tr0 heq =>
    injection hR with h1 h2
    refine .inl ⟨⟨e, h1.symm⟩, .inr ?_⟩
    rw [← h2, congrArg Prod.snd heq]
  next rawPayload tr0 heq =>
  split at hR
  next e heq3 =>
    injection hR with h1 h2
    refine .inl ⟨⟨e, h1.symm⟩, .inr ?_⟩
    rw [← h2, congrArg Prod.snd heq]
  next =>
  split at hR
  next e heq4 =>
    injection hR with h1 h2
    refine .inl ⟨⟨e, h1.symm⟩, .inr ?_⟩
    rw [← h2, congrArg Prod.snd heq]
  next payload heq4 =>
    injection hR with h1 h2
    refine .inr ⟨h1.symm, ev, id, payload, ?_⟩
    rw [← h2, congrArg Prod.snd heq]

/-- Function `checkSignature` with a non-empty secret and a present signature
header reduces to wrapping `checkSignaturePayload`. -/
theorem checkSignature_eq (h : Handler) (raw : List Nat) (req : Request)
    (hs : h.Secret ≠ "") (hsv : headerGet req "X-Hub-Signature" ≠ "") :
    h.checkSignature raw req =
      match h.checkSignaturePayload raw (headerGet req "X-Hub-Signature") with
      | .error msg =>
        .error (.request ⟨400, "invalid header X-Hub-Signature: " ++ msg⟩)
      | .ok _ => .ok () := by
  unfold Handler.checkSignature
  rw [if_neg hs, requireHeader_eq, if_neg hsv]

/-- Function `checkSignature` with a non-empty secret and an absent or empty
signature header is the missing-header error. -/
theorem checkSignature_missing (h : Handler) (raw : List Nat) (req : Request)
    (hs : h.Secret ≠ "") (hsv : headerGet req "X-Hub-Signature" = "") :
    h.checkSignature raw req =
      .error (.request ⟨400, "missing header: X-Hub-Signature"⟩) := by
  unfold Handler.checkSignature
  rw [if_neg hs, requireHeader_eq, if_pos hsv]
  rfl

/-- Function `checkSignaturePayload` on a value lacking the `sha1=` prefix. -/
theorem checkSignaturePayload_format (h : Handler) (raw : List Nat) (sig : String)
    (hp : hasPrefixStr "sha1=" sig = false) :
    h.checkSignaturePayload raw sig = .error "format" := by
  unfold Handler.checkSignaturePayload
  rw [hp]
  simp

/-- Function `checkSignaturePayload` when the suffix fails to hex-decode. -/
theorem checkSignaturePayload_hexError (h : Handler) (raw : List Nat) (sig : String)
    (e : HexError) (hp : hasPrefixStr "sha1=" sig = true)
    (hd : hexDecode (trimPrefixStr "sha1=" sig) = .error e) :
    h.checkSignaturePayload raw sig = .error e.message := by
  unfold Handler.checkSignaturePayload
  rw [hp, hd]
  simp

/-- Function `checkSignaturePayload` when the suffix hex-decodes: success exactly
on the expected MAC, the mismatch error otherwise. -/
theorem checkSignaturePayload_decoded (h : Handler) (raw : List Nat) (sig : String)
    (mac : List Nat) (hp : hasPrefixStr "sha1=" sig = true)
    (hd : hexDecode (trimPrefixStr "sha1=" sig) = .ok mac) :
    (mac = hmacSha1 (strBytes h.Secret) raw →
       h.checkSignaturePayload raw sig = .ok ()) ∧
    (mac ≠ hmacSha1 (strBytes h.Secret) raw →
       h.checkSignaturePayload raw sig = .error "doesn't match secret") := by
  unfold Handler.checkSignaturePayload
  rw [hp, hd]
  constructor
  · intro he
    simp [hmacEqual, he]
  · intro he
    simp [hmacEqual, he]

/-- C8: a request whose method is not exactly `"POST"` makes the pipeline
return the classified 405 error `method not allowed: <method>`, with an
empty event trace — no later validation stage runs, no body read and no
callback invocation happens. -/
theorem method_check_rejects_non_post (h : Handler) (req : Request)
    (hm : req.method ≠ "POST") :
    h.handleRequest req =
      (.error (.request ⟨405, "method not allowed: " ++ req.method⟩), []) := by
  have hcm : checkHTTPMethod req =
      .error (.request ⟨405, "method not allowed: " ++ req.method⟩) := by
    unfold checkHTTPMethod
    simp [hm]
  unfold Handler.handleRequest
  rw [hcm]

/-- Witness for C8: the GET variant of the test request is rejected with
status 405 and an empty trace. -/
theorem method_check_rejects_non_post_witness :
    zeroHandler.handleRequest reqGet =
      (.error (.request ⟨405, "method not allowed: GET"⟩), []) :=
  method_check_rejects_non_post zeroHandler reqGet (by decide)

/-- C7: once the method check passes, an absent or empty
`X-GitHub-Event` header makes the pipeline fail with the classified 400
error `missing header: X-GitHub-Event` — regardless of the delivery
header, so when both are missing the event header is the one reported —
and with the event header present, an absent or empty
`X-GitHub-Delivery` header fails with `missing header:
X-GitHub-Delivery`; in both cases the trace is empty. -/
theorem required_headers_spec (h : Handler) (req : Request)
    (hm : req.method = "POST") :
    (headerGet req "X-GitHub-Event" = "" →
       h.handleRequest req =
         (.error (.request ⟨400, "missing header: X-GitHub-Event"⟩), [])) ∧
    (headerGet req "X-GitHub-Event" ≠ "" → headerGet req "X-GitHub-Delivery" = "" →
       h.handleRequest req =
         (.error (.request ⟨400, "missing header: X-GitHub-Delivery"⟩), [])) := by
  have hcm : checkHTTPMethod req = .ok () := by
    unfold checkHTTPMethod
    simp [hm]
  constructor
  · intro he
    unfold Handler.handleRequest
    rw [hcm]
    unfold requireHeader
    simp [he]
  · intro he hd
    unfold Handler.handleRequest
    rw [hcm]
    unfold requireHeader
    simp [he, hd]

/-- Witness for C7: the request missing the event header is rejected
naming the event header (its delivery header is also missing), and the
request missing only the delivery header is rejected naming the delivery
header. -/
theorem required_headers_spec_witness :
    zeroHandler.handleRequest reqNoEvent =
      (.error (.request ⟨400, "missing header: X-GitHub-Event"⟩), []) ∧
    zeroHandler.handleRequest reqNoDelivery =
      (.error (.request ⟨400, "missing header: X-GitHub-Delivery"⟩), []) :=
  ⟨(required_headers_spec zeroHandler reqNoEvent rfl).1 rfl,
   (required_headers_spec zeroHandler reqNoDelivery rfl).2 (by decide) rfl⟩

/-- C3: the response to a pipeline failure depends only on the error's
category: a classified `RequestError` yields its own status code and
message as the response, any other error yields 500 with the generic
status text (the underlying message never appears in the body); the
response is written first, and then the `Error` observer — exactly when it
is configured — is invoked with the original error and the original
request. -/
theorem error_response_spec (h : Handler) (req : Request) (err : GoError) :
    (∀ e : RequestError, err = .request e →
       h.handleError err req =
         [.respondError e.StatusCode e.Message] ++
           (if h.Error then [.errorCall err req] else []) ∧
       responsesWritten (h.handleError err req) = [(e.StatusCode, e.Message)]) ∧
    (∀ msg, err = .other msg →
       h.handleError err req =
         [.respondError 500 "Internal Server Error"] ++
           (if h.Error then [.errorCall err req] else []) ∧
       responsesWritten (h.handleError err req) = [(500, "Internal Server Error")]) ∧
    (h.Error = true → errorCalls (h.handleError err req) = [(err, req)]) ∧
    (h.Error = false → errorCalls (h.handleError err req) = []) := by
  refine ⟨?_, ?_, ?_, ?_⟩
  · intro e he
    subst he
    unfold Handler.handleError
    cases hE : h.Error <;>
      simp [responsesWritten, statusText, hE]
  · intro msg he
    subst he
    unfold Handler.handleError
    cases hE : h.Error <;>
      simp [responsesWritten, statusText, hE]
  · intro hE
    unfold Handler.handleError
    cases err <;> simp [errorCalls, hE]
  · intro hE
    unfold Handler.handleError
    cases err <;> simp [errorCalls, hE]

/-- Witness for C3: a concrete classified error is echoed with its own
status and message and reaches the observer together with the request; a
concrete unclassified error is reported as 500 `Internal Server Error`
with the underlying text absent from the response. -/
theorem error_response_spec_witness :
    responsesWritten (hSecret.handleError (.request ⟨400, "nope"⟩) reqJson) =
      [(400, "nope")] ∧
    responsesWritten (hSecret.handleError (.other "secret detail") reqJson) =
      [(500, "Internal Server Error")] ∧
    errorCalls (hSecret.handleError (.other "secret detail") reqJson) =
      [(.other "secret detail", reqJson)] :=
  ⟨((error_response_spec hSecret reqJson (.request ⟨400, "nope"⟩)).1 ⟨400, "nope"⟩ rfl).2,
   ((error_response_spec hSecret reqJson (.other "secret detail")).2.1 "secret detail" rfl).2,
   (error_response_spec hSecret reqJson (.other "secret detail")).2.2.1 rfl⟩

/-- C9: payload decoding uses the custom decoder (applied to the event
string and raw payload bytes) when one is configured and JSON
unmarshalling otherwise; on either path a success is returned as-is and a
failure is wrapped as the classified 400 error
`payload decode error: <underlying message>`. -/
theorem decode_payload_spec (h : Handler) (event : String) (raw : List Nat) :
    (∀ f, h.DecodePayload = some f →
       (∀ v, f event raw = .ok v → h.decodePayload event raw = .ok v) ∧
       (∀ e, f event raw = .error e →
          h.decodePayload event raw =
            .error (.request ⟨400, "payload decode error: " ++ e⟩))) ∧
    (h.DecodePayload = none →
       (∀ v, jsonUnmarshal raw = .ok v → h.decodePayload event raw = .ok v) ∧
       (∀ e, jsonUnmarshal raw = .error e →
          h.decodePayload event raw =
            .error (.request ⟨400, "payload decode error: " ++ e⟩))) := by
  constructor
  · intro f hf
    constructor
    · intro v hv
      unfold Handler.decodePayload
      simp [hf, hv]
    · intro e he
      unfold Handler.decodePayload
      simp [hf, he]
  · intro hf
    constructor
    · intro v hv
      unfold Handler.decodePayload
      simp [hf, hv]
    · intro e he
      unfold Handler.decodePayload
      simp [hf, he]

/-- Witness for C9: without a custom decoder the JSON payload `1` decodes
to the number 1, and a custom decoder that always fails produces the
wrapped 400 error. -/
theorem decode_payload_spec_witness :
    zeroHandler.decodePayload "push" (strBytes "1") = .ok (.num 1) ∧
    (Handler.decodePayload
        { Secret := "", DecodePayload := some (fun _ _ => .error "error"),
          Delivery := false, Error := false } "push" (strBytes "1")) =
      .error (.request ⟨400, "payload decode error: error"⟩) :=
  ⟨((decode_payload_spec zeroHandler "push" (strBytes "1")).2 rfl).1 (.num 1) rfl,
   ((decode_payload_spec
        { Secret := "", DecodePayload := some (fun _ _ => .error "error"),
          Delivery := false, Error := false } "push" (strBytes "1")).1
      (fun _ _ => .error "error") rfl).2 "error" rfl⟩

/-- C5: payload extraction dispatches on the verbatim `Content-Type`
value: exactly `application/json` reads the whole body as the raw payload
(propagating a read failure unclassified), exactly
`application/x-www-form-urlencoded` takes the `payload` form field — the
empty string when the field is absent, which is not an error at this
stage — and every other value (empty or parameterised ones included) is
the classified 400 error `invalid content type: <value>` with no body
read. -/
theorem raw_payload_extraction_spec (req : Request) :
    (headerGet req "Content-Type" = "application/json" →
       (∀ bs, req.body = .ok bs → getRawPayload req = (.ok bs, [.bodyRead])) ∧
       (∀ e, req.body = .error e →
          getRawPayload req = (.error (.other e), [.bodyRead]))) ∧
    (headerGet req "Content-Type" = "application/x-www-form-urlencoded" →
       getRawPayload req =
         (.ok (strBytes (req.postFormValue "payload")), [.bodyRead]) ∧
       (req.form.find? (fun p => p.1 == "payload") = none →
          req.postFormValue "payload" = "")) ∧
    (headerGet req "Content-Type" ≠ "application/json" →
     headerGet req "Content-Type" ≠ "application/x-www-form-urlencoded" →
       getRawPayload req =
         (.error (.request
            ⟨400, "invalid content type: " ++ headerGet req "Content-Type"⟩), [])) := by
  refine ⟨?_, ?_, ?_⟩
  · intro hct
    constructor
    · intro bs hb
      unfold getRawPayload
      rw [hct, hb]
      rfl
    · intro e hb
      unfold getRawPayload
      rw [hct, hb]
      rfl
  · intro hct
    constructor
    · unfold getRawPayload
      rw [hct]
      rfl
    · intro hf
      unfold Request.postFormValue
      cases req.body <;> simp [hf]
  · intro h1 h2
    unfold getRawPayload
    split
    next hct => exact absurd hct h1
    next hct => exact absurd hct h2
    next => rfl

/-- Witness for C5: the JSON test request yields its whole body, a form
request with the field absent yields the empty payload, and a
`text/plain` request is rejected with no body read. -/
theorem raw_payload_extraction_spec_witness :
    getRawPayload reqJson = (.ok (strBytes "\x7b\"foo\":\"bar\"\x7d"), [.bodyRead]) ∧
    Request.postFormValue
      { method := "POST", headers := [("Content-Type", "application/x-www-form-urlencoded")]
      , body := .ok [], form := [] } "payload" = "" ∧
    getRawPayload { reqJson with headers := [("Content-Type", "text/plain")] } =
      (.error (.request ⟨400, "invalid content type: text/plain"⟩), []) :=
  ⟨((raw_payload_extraction_spec reqJson).1 rfl).1 (strBytes "\x7b\"foo\":\"bar\"\x7d") rfl,
   ((raw_payload_extraction_spec
      { method := "POST", headers := [("Content-Type", "application/x-www-form-urlencoded")]
      , body := .ok [], form := [] }).2.1 rfl).2 rfl,
   (raw_payload_extraction_spec
      { reqJson with headers := [("Content-Type", "text/plain")] }).2.2
     (by decide) (by decide)⟩

/-- C1: with a non-empty secret, the signature stage succeeds exactly when
the `X-Hub-Signature` header is present, carries the `sha1=` prefix, and
its suffix hex-decodes to precisely the HMAC-SHA1 of the raw payload under
the secret; decoded bytes differing from that MAC yield the classified 400
error `invalid header X-Hub-Signature: doesn't match secret`; with an
empty secret the stage succeeds unconditionally, independent of the
signature header. -/
theorem signature_verification_spec (h : Handler) (req : Request) (raw : List Nat) :
    (h.Secret = "" → h.checkSignature raw req = .ok ()) ∧
    (h.Secret ≠ "" →
      (h.checkSignature raw req = .ok () ↔
         headerGet req "X-Hub-Signature" ≠ "" ∧
         hasPrefixStr "sha1=" (headerGet req "X-Hub-Signature") = true ∧
         hexDecode (trimPrefixStr "sha1=" (headerGet req "X-Hub-Signature")) =
           .ok (hmacSha1 (strBytes h.Secret) raw)) ∧
      (∀ mac, hasPrefixStr "sha1=" (headerGet req "X-Hub-Signature") = true →
         hexDecode (trimPrefixStr "sha1=" (headerGet req "X-Hub-Signature")) = .ok mac →
         mac ≠ hmacSha1 (strBytes h.Secret) raw →
         h.checkSignature raw req =
           .error (.request
             ⟨400, "invalid header X-Hub-Signature: doesn't match secret"⟩))) := by
  constructor
  · intro hs
    unfold Handler.checkSignature
    rw [if_pos hs]
  · intro hs
    by_cases hsv : headerGet req "X-Hub-Signature" = ""
    · rw [checkSignature_missing h raw req hs hsv]
      constructor
      · simp [hsv]
      · intro mac hp _ _
        rw [hsv] at hp
        exact absurd hp (by decide)
    · rw [checkSignature_eq h raw req hs hsv]
      cases hp : hasPrefixStr "sha1=" (headerGet req "X-Hub-Signature") with
      | false =>
        rw [checkSignaturePayload_format h raw _ hp]
        constructor
        · simp
        · intro mac hp2 _ _
          exact absurd hp2 (by simp)
      | true =>
        cases hdec : hexDecode (trimPrefixStr "sha1=" (headerGet req "X-Hub-Signature")) with
        | error e =>
          rw [checkSignaturePayload_hexError h raw _ e hp hdec]
          constructor
          · simp
          · intro mac _ hmac _
            exact absurd hmac (by simp)
        | ok requestMAC =>
          by_cases heq : requestMAC = hmacSha1 (strBytes h.Secret) raw
          · rw [(checkSignaturePayload_decoded h raw _ requestMAC hp hdec).1 heq]
            constructor
            · simp [hsv, heq]
            · intro mac _ hmac hne
              injection hmac with hmac
              exact absurd (hmac ▸ heq) hne
          · rw [(checkSignaturePayload_decoded h raw _ requestMAC hp hdec).2 heq]
            constructor
            · constructor
              · intro hcontra
                exact absurd hcontra (by simp)
              · intro hrhs
                injection hrhs.2.2 with hok
                exact absurd hok heq
            · intro mac _ _ _
              rfl

/-- Witness for C1: an empty-secret handler accepts the JSON request
without any signature header, and the test handler (secret `foobar`)
accepts the exact HMAC-SHA1 signature of the test payload. -/
theorem signature_verification_spec_witness :
    zeroHandler.checkSignature [] reqJson = .ok () ∧
    hSecret.checkSignature (strBytes "\x7b\"foo\":\"bar\"\x7d")
        (reqWithSig "sha1=c86f366ed26f1e85c98eb0744114ba54fb0a110d") = .ok () :=
  ⟨(signature_verification_spec zeroHandler reqJson []).1 rfl,
   (((signature_verification_spec hSecret
        (reqWithSig "sha1=c86f366ed26f1e85c98eb0744114ba54fb0a110d")
        (strBytes "\x7b\"foo\":\"bar\"\x7d")).2 (by decide)).1).mpr
     ⟨by decide, by decide, by rfl⟩⟩

/-- C4 counterexample: the hex decoder accepts uppercase digits, so the
signature value `sha1=FF` — non-hex under the claim's lowercase-only
reading — is treated as well-formed: it decodes to the byte 255 and the
stage reports the MAC mismatch, not a hex-decoding failure. -/
theorem signature_lowercase_counterexample :
    hexDecode "FF" = .ok [255] ∧
    hSecret.checkSignature [] (reqWithSig "sha1=FF") =
      .error (.request
        ⟨400, "invalid header X-Hub-Signature: doesn't match secret"⟩) := by
  constructor
  · rfl
  · rfl

/-- C4 (amended): with a non-empty secret and the signature header
present, a value lacking the `sha1=` prefix yields the classified 400
error `invalid header X-Hub-Signature: format`, and a suffix that fails
hex decoding yields status 400 with the hex-decoding failure description;
the hex decoder accepts decimal digits and both lowercase and uppercase
hexadecimal letters. -/
theorem signature_format_spec (h : Handler) (req : Request) (raw : List Nat)
    (hs : h.Secret ≠ "") (hsv : headerGet req "X-Hub-Signature" ≠ "") :
    (hasPrefixStr "sha1=" (headerGet req "X-Hub-Signature") = false →
       h.checkSignature raw req =
         .error (.request ⟨400, "invalid header X-Hub-Signature: format"⟩)) ∧
    (∀ e, hasPrefixStr "sha1=" (headerGet req "X-Hub-Signature") = true →
       hexDecode (trimPrefixStr "sha1=" (headerGet req "X-Hub-Signature")) = .error e →
       h.checkSignature raw req =
         .error (.request
           ⟨400, "invalid header X-Hub-Signature: " ++ e.message⟩)) ∧
    (∀ c, (fromHexChar c).isSome = true ↔
       ('0' ≤ c ∧ c ≤ '9') ∨ ('a' ≤ c ∧ c ≤ 'f') ∨ ('A' ≤ c ∧ c ≤ 'F')) := by
  refine ⟨?_, ?_, ?_⟩
  · intro hp
    rw [checkSignature_eq h raw req hs hsv, checkSignaturePayload_format h raw _ hp]
    rfl
  · intro e hp hd
    rw [checkSignature_eq h raw req hs hsv,
        checkSignaturePayload_hexError h raw _ e hp hd]
  · intro c
    by_cases h1 : '0' ≤ c ∧ c ≤ '9'
    · simp [fromHexChar, h1]
    · by_cases h2 : 'a' ≤ c ∧ c ≤ 'f'
      · simp [fromHexChar, h1, h2]
      · by_cases h3 : 'A' ≤ c ∧ c ≤ 'F'
        · simp [fromHexChar, h1, h2, h3]
        · simp [fromHexChar, h1, h2, h3]

/-- Witness for the amended C4: a prefixless signature value gives the
`format` error, and a non-hex suffix gives the hex-decoding failure
description. -/
theorem signature_format_spec_witness :
    hSecret.checkSignature [] (reqWithSig "xx") =
      .error (.request ⟨400, "invalid header X-Hub-Signature: format"⟩) ∧
    hSecret.checkSignature [] (reqWithSig "sha1=zz") =
      .error (.request
        ⟨400, "invalid header X-Hub-Signature: encoding/hex: invalid byte: U+007A 'z'"⟩) :=
  ⟨(signature_format_spec hSecret (reqWithSig "xx") [] (by decide) (by decide)).1 rfl,
   (signature_format_spec hSecret (reqWithSig "sha1=zz") [] (by decide)
      (by decide)).2.1 (.invalidByte 'z') rfl rfl⟩

/-- C2: the validation stages run in the fixed order — method check,
event header, delivery header, payload extraction, signature check,
payload decoding, delivery dispatch; the first failing stage's error is
the pipeline's result and no later stage's effect occurs; a failing
pipeline never invokes the delivery callback, and when every stage
succeeds the delivery callback — exactly when configured — is invoked
exactly once, with the event, the delivery identifier and the decoded
payload, before the pipeline returns. -/
theorem pipeline_order_spec (h : Handler) (req : Request) :
    (∀ e, checkHTTPMethod req = .error e →
       h.handleRequest req = (.error e, [])) ∧
    (∀ e, checkHTTPMethod req = .ok () →
       requireHeader "X-GitHub-Event" req = .error e →
       h.handleRequest req = (.error e, [])) ∧
    (∀ ev e, checkHTTPMethod req = .ok () →
       requireHeader "X-GitHub-Event" req = .ok ev →
       requireHeader "X-GitHub-Delivery" req = .error e →
       h.handleRequest req = (.error e, [])) ∧
    (∀ ev id e tr, checkHTTPMethod req = .ok () →
       requireHeader "X-GitHub-Event" req = .ok ev →
       requireHeader "X-GitHub-Delivery" req = .ok id →
       getRawPayload req = (.error e, tr) →
       h.handleRequest req = (.error e, tr)) ∧
    (∀ ev id raw tr e, checkHTTPMethod req = .ok () →
       requireHeader "X-GitHub-Event" req = .ok ev →
       requireHeader "X-GitHub-Delivery" req = .ok id →
       getRawPayload req = (.ok raw, tr) →
       h.checkSignature raw req = .error e →
       h.handleRequest req = (.error e, tr)) ∧
    (∀ ev id raw tr e, checkHTTPMethod req = .ok () →
       requireHeader "X-GitHub-Event" req = .ok ev →
       requireHeader "X-GitHub-Delivery" req = .ok id →
       getRawPayload req = (.ok raw, tr) →
       h.checkSignature raw req = .ok () →
       h.decodePayload ev raw = .error e →
       h.handleRequest req = (.error e, tr)) ∧
    (∀ e tr, h.handleRequest req = (.error e, tr) → deliveryCalls tr = []) ∧
    (∀ ev id raw tr payload, checkHTTPMethod req = .ok () →
       requireHeader "X-GitHub-Event" req = .ok ev →
       requireHeader "X-GitHub-Delivery" req = .ok id →
       getRawPayload req = (.ok raw, tr) →
       h.checkSignature raw req = .ok () →
       h.decodePayload ev raw = .ok payload →
       h.handleRequest req =
         (.ok (), tr ++ if h.Delivery then [.deliveryCall ev id payload] else []) ∧
       deliveryCalls (h.handleRequest req).2 =
         (if h.Delivery then [(ev, id, payload)] else [])) := by
  refine ⟨?_, ?_, ?_, ?_, ?_, ?_, ?_, ?_⟩
  · intro e hcm
    unfold Handler.handleRequest
    rw [hcm]
  · intro e hcm hev
    unfold Handler.handleRequest
    rw [hcm, hev]
  · intro ev e hcm hev hid
    unfold Handler.handleRequest
    rw [hcm, hev, hid]
  · intro ev id e tr hcm hev hid hraw
    unfold Handler.handleRequest
    rw [hcm, hev, hid, hraw]
  · intro ev id raw tr e hcm hev hid hraw hsig
    unfold Handler.handleRequest
    rw [hcm, hev, hid, hraw]
    dsimp only
    rw [hsig]
  · intro ev id raw tr e hcm hev hid hraw hsig hdec
    unfold Handler.handleRequest
    rw [hcm, hev, hid, hraw]
    dsimp only
    rw [hsig, hdec]
  · intro e tr hreq
    rcases handleRequest_cases h req (.error e) tr hreq with
      ⟨_, h' | h'⟩ | ⟨hok, _⟩
    · rw [h']; rfl
    · rw [h']; exact (raw_trace_filters req).1
    · exact absurd hok (by simp)
  · intro ev id raw tr payload hcm hev hid hraw hsig hdec
    have hmain : h.handleRequest req =
        (.ok (), tr ++ if h.Delivery then [.deliveryCall ev id payload] else []) := by
      unfold Handler.handleRequest
      rw [hcm, hev, hid, hraw]
      dsimp only
      rw [hsig, hdec]
    refine ⟨hmain, ?_⟩
    have htr : tr = (getRawPayload req).2 := (congrArg Prod.snd hraw).symm
    rw [hmain, deliveryCalls_append, htr, (raw_trace_filters req).1]
    cases h.Delivery <;> rfl

/-- Witness for C2: a GET request short-circuits at the method stage with
an empty trace, and the full-success JSON request with a configured
delivery callback produces exactly one delivery invocation carrying the
event `push`, the identifier `did` and the decoded payload. -/
theorem pipeline_order_spec_witness :
    zeroHandler.handleRequest reqGet =
      (.error (.request ⟨405, "method not allowed: GET"⟩), []) ∧
    deliveryCalls (hDeliver.handleRequest reqJson).2 =
      [("push", "did", .obj [("foo", .str "bar")])] := by
  constructor
  · exact (pipeline_order_spec zeroHandler reqGet).1 _ rfl
  · have hc := (pipeline_order_spec hDeliver reqJson).2.2.2.2.2.2.2
      "push" "did" (strBytes "\x7b\"foo\":\"bar\"\x7d") [.bodyRead]
      (.obj [("foo", .str "bar")]) rfl rfl rfl rfl rfl rfl
    rw [hc.2]
    rfl

/-- C6 counterexample: on a form-encoded request whose body read fails,
the form branch returns a nil error — the failure does not propagate, the
payload is empty, and the response is the 400 decode error rather than the
500 the claim requires. -/
theorem body_read_form_counterexample :
    reqFormFail.body = .error "read failure" ∧
    zeroHandler.handleRequest reqFormFail =
      (.error (.request ⟨400, "payload decode error: unexpected end of JSON input"⟩),
       [.bodyRead]) ∧
    responsesWritten (zeroHandler.ServeHTTP reqFormFail) =
      [(400, "payload decode error: unexpected end of JSON input")] := by
  refine ⟨rfl, rfl, rfl⟩

/-- C6 (amended): every request incurs at most one body read; for the
`application/json` content type a body read failure propagates as an
unclassified error, producing status 500 with the generic status text and
not the underlying error string; for the form content type the extraction
branch returns with a nil error unconditionally, so a body read failure
does not propagate there. -/
theorem body_read_spec (h : Handler) (req : Request) :
    bodyReadCount (h.ServeHTTP req) ≤ 1 ∧
    (headerGet req "Content-Type" = "application/json" →
       ∀ e, req.body = .error e →
         req.method = "POST" →
         headerGet req "X-GitHub-Event" ≠ "" →
         headerGet req "X-GitHub-Delivery" ≠ "" →
         responsesWritten (h.ServeHTTP req) = [(500, "Internal Server Error")]) ∧
    (headerGet req "Content-Type" = "application/x-www-form-urlencoded" →
       getRawPayload req = (.ok (strBytes (req.postFormValue "payload")), [.bodyRead])) := by
  refine ⟨?_, ?_, ?_⟩
  · rcases hR : h.handleRequest req with ⟨res, tr⟩
    have hcase := handleRequest_cases h req res tr hR
    have htr : bodyReadCount tr ≤ 1 := by
      rcases hcase with ⟨_, h' | h'⟩ | ⟨_, ev, id, payload, h'⟩
      · rw [h']; decide
      · rw [h']; exact (raw_trace_filters req).2.2.2
      · rw [h', bodyReadCount_append]
        have hz : bodyReadCount
            (if h.Delivery then [Event.deliveryCall ev id payload] else []) = 0 := by
          cases h.Delivery <;> rfl
        rw [hz]
        simpa using (raw_trace_filters req).2.2.2
    unfold Handler.ServeHTTP
    rw [hR]
    cases res with
    | ok _ => exact htr
    | error e =>
      show bodyReadCount (tr ++ h.handleError e req) ≤ 1
      rw [bodyReadCount_append, (handleError_filters h e req).2.1]
      omega
  · intro hct e hb hm hev hid
    have hcm : checkHTTPMethod req = .ok () := by
      unfold checkHTTPMethod
      simp [hm]
    have hraw : getRawPayload req = (.error (.other e), [.bodyRead]) := by
      unfold getRawPayload
      rw [hct, hb]
      rfl
    have hreq : h.handleRequest req = (.error (.other e), [.bodyRead]) := by
      unfold Handler.handleRequest
      rw [hcm, requireHeader_eq "X-GitHub-Event" req, if_neg hev,
          requireHeader_eq "X-GitHub-Delivery" req, if_neg hid, hraw]
    unfold Handler.ServeHTTP
    rw [hreq]
    show responsesWritten ([Event.bodyRead] ++ h.handleError (.other e) req) =
      [(500, "Internal Server Error")]
    rw [responsesWritten_append, (handleError_filters h (.other e) req).2.2.1]
    rfl
  · intro hct
    unfold getRawPayload
    rw [hct]
    rfl

/-- Witness for the amended C6: the JSON request with a failing body read
is answered 500 `Internal Server Error`, and the successful JSON request
incurs at most one body read. -/
theorem body_read_spec_witness :
    responsesWritten (zeroHandler.ServeHTTP reqJsonFail) =
      [(500, "Internal Server Error")] ∧
    bodyReadCount (zeroHandler.ServeHTTP reqJson) ≤ 1 :=
  ⟨(body_read_spec zeroHandler reqJsonFail).2.1 rfl "read failure" rfl rfl
      (by decide) (by decide),
   (body_read_spec zeroHandler reqJson).1⟩

/-- C10: a zero-value handler is safe — the delivery callback runs only
when configured, the error observer runs only when configured, an absent
custom decoder means the default JSON decode is used — and on full
pipeline success no response is written (the server's implicit 200
stands). -/
theorem nil_callback_safety (h : Handler) (req : Request) :
    (h.Delivery = false → deliveryCalls (h.ServeHTTP req) = []) ∧
    (h.Error = false → errorCalls (h.ServeHTTP req) = []) ∧
    (h.DecodePayload = none → ∀ ev raw,
       h.decodePayload ev raw =
         (match jsonUnmarshal raw with
          | .error e => .error (.request ⟨400, "payload decode error: " ++ e⟩)
          | .ok v => .ok v)) ∧
    ((h.handleRequest req).1 = .ok () → responsesWritten (h.ServeHTTP req) = []) := by
  rcases hR : h.handleRequest req with ⟨res, tr⟩
  have hcase := handleRequest_cases h req res tr hR
  refine ⟨?_, ?_, ?_, ?_⟩
  · intro hD
    have htr : deliveryCalls tr = [] := by
      rcases hcase with ⟨_, h' | h'⟩ | ⟨_, ev, id, payload, h'⟩
      · rw [h']; rfl
      · rw [h']; exact (raw_trace_filters req).1
      · rw [h', hD, deliveryCalls_append, (raw_trace_filters req).1]
        rfl
    unfold Handler.ServeHTTP
    rw [hR]
    cases res with
    | ok _ => exact htr
    | error e =>
      show deliveryCalls (tr ++ h.handleError e req) = []
      rw [deliveryCalls_append, htr, (handleError_filters h e req).1]
      rfl
  · intro hE
    have htr : errorCalls tr = [] := by
      rcases hcase with ⟨_, h' | h'⟩ | ⟨_, ev, id, payload, h'⟩
      · rw [h']; rfl
      · rw [h']; exact (raw_trace_filters req).2.2.1
      · rw [h', errorCalls_append, (raw_trace_filters req).2.2.1]
        cases h.Delivery <;> rfl
    unfold Handler.ServeHTTP
    rw [hR]
    cases res with
    | ok _ => exact htr
    | error e =>
      show errorCalls (tr ++ h.handleError e req) = []
      rw [errorCalls_append, htr, (handleError_filters h e req).2.2.2.1 hE]
      rfl
  · intro hnone ev raw
    unfold Handler.decodePayload
    rw [hnone]
  · intro hok
    replace hok : res = Except.ok () := hok
    subst hok
    unfold Handler.ServeHTTP
    rw [hR]
    show responsesWritten tr = []
    rcases hcase with ⟨⟨e, he⟩, _⟩ | ⟨_, ev, id, payload, h'⟩
    · exact absurd he (by simp)
    · rw [h', responsesWritten_append, (raw_trace_filters req).2.1]
      cases h.Delivery <;> rfl

/-- Witness for C10: on the successful JSON request the zero-value
handler invokes no callback and writes nothing to the response. -/
theorem nil_callback_safety_witness :
    deliveryCalls (zeroHandler.ServeHTTP reqJson) = [] ∧
    errorCalls (zeroHandler.ServeHTTP reqJson) = [] ∧
    responsesWritten (zeroHandler.ServeHTTP reqJson) = [] :=
  ⟨(nil_callback_safety zeroHandler reqJson).1 rfl,
   (nil_callback_safety zeroHandler reqJson).2.1 rfl,
   (nil_callback_safety zeroHandler reqJson).2.2.2 rfl⟩

end Githubhook
